import Mathlib

/-!
Verification development for the GitBot repository: a shallow embedding in
Lean 4 of the webhook HTTP listener (`webhook_server.py`), the IRC
connection engine (`irc_client.py`) and the topology/delivery router
(`bot.py`), together with theorems settling the specification claims.

Strings are modelled as `List Char` (Python `str`) so that every operation
is structurally recursive and evaluable by the kernel; byte strings
(Python `bytes`) are modelled as `List Nat`.  IO boundaries (socket reads,
timeouts) are modelled by taking the data a read returned as input;
library calls without Lean counterparts (`json.loads`, HMAC-SHA256,
base64) are either implemented (a JSON syntax checker mirroring the
grammar accepted by `json.loads`) or passed in as function parameters,
which the theorems quantify over.
-/

set_option maxRecDepth 20000

namespace GitBot

/-- Python `str` values, modelled as their character list. -/
abbrev Str := List Char

/-- Convert a Lean string literal to the `Str` model. -/
def str (s : String) : Str := s.data

/-- Split on a single separator character, keeping empty fragments —
the behaviour of Python `s.split(sep)` for a one-character `sep`. -/
def splitOnChar (sep : Char) (cs : Str) : List Str :=
  match cs with
  | [] => [[]]
  | c :: rest =>
    let r := splitOnChar sep rest
    if c == sep then [] :: r
    else
      match r with
      | [] => [[c]]
      | g :: gs => (c :: g) :: gs

/-- ASCII lower-casing of one character (Python `str.lower` restricted to
ASCII, which is all the source ever feeds it: forge names, channel names,
nicknames). -/
def lowerChar (c : Char) : Char :=
  if 'A' ≤ c && c ≤ 'Z' then Char.ofNat (c.toNat + 32) else c

/-- Python `str.lower()` (ASCII fragment). -/
def lower (s : Str) : Str := s.map lowerChar

/-- Python whitespace stripped by `str.strip()` on the inputs that occur
here (ASCII whitespace). -/
def isSpaceChar (c : Char) : Bool :=
  c == ' ' || c == '\t' || c == '\n' || c == '\r' ||
  c == Char.ofNat 11 || c == Char.ofNat 12

/-- Python `s.strip()` (ASCII whitespace fragment). -/
def strip (s : Str) : Str :=
  ((s.dropWhile isSpaceChar).reverse.dropWhile isSpaceChar).reverse

/-- `needle` occurs as a contiguous substring of `hay` (Python `in` on
`str`, for a non-empty needle). -/
def hasSubstr (needle hay : Str) : Bool :=
  match hay with
  | [] => needle.isEmpty
  | _ :: rest => (needle.isPrefixOf hay) || hasSubstr needle rest

/-- The text after the first occurrence of `sep`, the whole string when
`sep` is absent: Python `s.split(sep, 1)[-1]`. -/
def afterFirstChar (sep : Char) (s : Str) : Str :=
  match splitOnChar sep s with
  | [] => s
  | [_] => s
  | _ :: rest => (List.intercalate [sep] rest)

/-- Python `s.lstrip(":")`: drop every leading colon. -/
def stripColons (s : Str) : Str := s.dropWhile (· == ':')

/-- Lookup in an association list (Python `dict.get` on a dict built by
inserting the listed pairs; keys are unique in every dict modelled
here). -/
def alookup {α : Type} (k : Str) : List (Str × α) → Option α
  | [] => none
  | (k1, v) :: tl => if k = k1 then some v else alookup k tl

/-- Python integer literal parsing, `int(s)` on an optionally signed
decimal string (the `Content-Length` header); `none` models the
`ValueError` that a non-numeric header raises. -/
def pyInt (s : Str) : Option Int :=
  let t := strip s
  let (sign, digits) :=
    match t with
    | '-' :: r => ((-1 : Int), r)
    | '+' :: r => ((1 : Int), r)
    | r => ((1 : Int), r)
  if digits.isEmpty || !digits.all Char.isDigit then none
  else some (sign * (digits.foldl (fun a c => a * 10 + (c.toNat - 48)) (0 : Nat) : Nat))

-- ── JSON syntax checker ─────────────────────────────────────────────────────
-- A model of the grammar accepted by Python `json.loads` (default,
-- non-strict floats enabled: `NaN`, `Infinity`, `-Infinity`).  The claims
-- only need validity, so the checker returns the unconsumed suffix rather
-- than a value.  Recursion is fuelled; `2*len+4` fuel suffices for any
-- input whose nesting the Python recursion limit would also accept.

/-- The `{` character (written by code point to keep it out of literals). -/
def curlyOpen : Char := Char.ofNat 123

/-- The `}` character. -/
def curlyClose : Char := Char.ofNat 125

/-- JSON insignificant whitespace. -/
def isJsonWs (c : Char) : Bool :=
  c == ' ' || c == '\t' || c == '\n' || c == '\r'

/-- Skip JSON whitespace. -/
def skipWs (cs : Str) : Str := cs.dropWhile isJsonWs

/-- Hexadecimal digit. -/
def isHexDigit (c : Char) : Bool :=
  c.isDigit || ('a' ≤ c && c ≤ 'f') || ('A' ≤ c && c ≤ 'F')

/-- Rest of a JSON string after the opening quote; returns the suffix
after the closing quote. -/
def jsonStrRest (cs : Str) : Option Str :=
  match cs with
  | [] => none
  | c :: rest =>
    if c == '"' then some rest
    else if c == '\\' then
      match rest with
      | [] => none
      | e :: rest2 =>
        if e == 'u' then
          match rest2 with
          | a :: b :: c2 :: d :: r =>
            if isHexDigit a && isHexDigit b && isHexDigit c2 && isHexDigit d then
              jsonStrRest r
            else none
          | _ => none
        else if e == '"' || e == '\\' || e == '/' || e == 'b' || e == 'f' ||
                e == 'n' || e == 'r' || e == 't' then
          jsonStrRest rest2
        else none
    else if c.toNat < 32 then none
    else jsonStrRest rest

/-- Exponent part of a JSON number (optional). -/
def jsonExp (cs : Str) : Option Str :=
  match cs with
  | [] => some []
  | c :: rest =>
    if c == 'e' || c == 'E' then
      let rest2 :=
        match rest with
        | s :: r2 => if s == '+' || s == '-' then r2 else rest
        | [] => rest
      match rest2 with
      | d :: _ => if d.isDigit then some (rest2.dropWhile Char.isDigit) else none
      | [] => none
    else some cs

/-- Fraction part of a JSON number (optional), then exponent. -/
def jsonFrac (cs : Str) : Option Str :=
  match cs with
  | [] => some []
  | c :: rest =>
    if c == '.' then
      match rest with
      | d :: _ => if d.isDigit then jsonExp (rest.dropWhile Char.isDigit) else none
      | [] => none
    else jsonExp cs

/-- A JSON number starting at `cs` (possibly signed). -/
def jsonNumRest (cs : Str) : Option Str :=
  let cs1 := match cs with | '-' :: r => r | _ => cs
  match cs1 with
  | [] => none
  | c :: rest =>
    if c == '0' then jsonFrac rest
    else if c.isDigit then jsonFrac (rest.dropWhile Char.isDigit)
    else none

/-- Literal keyword match. -/
def matchLit (lit : Str) (cs : Str) : Option Str :=
  if cs.take lit.length = lit then some (cs.drop lit.length) else none

mutual

/-- One JSON value; returns the suffix after it. -/
def jsonVal : Nat → Str → Option Str
  | 0, _ => none
  | Nat.succ fuel, cs =>
    let cs := skipWs cs
    match cs with
    | [] => none
    | c :: rest =>
      if c == curlyOpen then jsonObjBody fuel rest
      else if c == '[' then jsonArrBody fuel rest
      else if c == '"' then jsonStrRest rest
      else if c == 't' then matchLit (str "rue") rest
      else if c == 'f' then matchLit (str "alse") rest
      else if c == 'n' then matchLit (str "ull") rest
      else if c == 'N' then matchLit (str "aN") rest
      else if c == 'I' then matchLit (str "nfinity") rest
      else if c == '-' then
        match rest with
        | 'I' :: r2 => matchLit (str "nfinity") r2
        | _ => jsonNumRest cs
      else if c.isDigit then jsonNumRest cs
      else none

/-- Object body after the opening brace. -/
def jsonObjBody : Nat → Str → Option Str
  | 0, _ => none
  | Nat.succ fuel, cs =>
    match skipWs cs with
    | [] => none
    | c :: rest =>
      if c == curlyClose then some rest
      else jsonMembers fuel (c :: rest)

/-- One or more `"key": value` members, then the closing brace. -/
def jsonMembers : Nat → Str → Option Str
  | 0, _ => none
  | Nat.succ fuel, cs =>
    match skipWs cs with
    | '"' :: rest =>
      match jsonStrRest rest with
      | none => none
      | some afterKey =>
        match skipWs afterKey with
        | ':' :: afterColon =>
          match jsonVal fuel afterColon with
          | none => none
          | some afterVal =>
            match skipWs afterVal with
            | ',' :: nxt => jsonMembers fuel nxt
            | c2 :: r2 => if c2 == curlyClose then some r2 else none
            | [] => none
        | _ => none
    | _ => none

/-- Array body after the opening bracket. -/
def jsonArrBody : Nat → Str → Option Str
  | 0, _ => none
  | Nat.succ fuel, cs =>
    match skipWs cs with
    | ']' :: rest => some rest
    | _ => jsonItems fuel cs

/-- One or more array items, then the closing bracket. -/
def jsonItems : Nat → Str → Option Str
  | 0, _ => none
  | Nat.succ fuel, cs =>
    match jsonVal fuel cs with
    | none => none
    | some afterVal =>
      match skipWs afterVal with
      | ',' :: nxt => jsonItems fuel nxt
      | ']' :: r => some r
      | _ => none

end

/-- `json.loads(s)` succeeds: one JSON value followed only by whitespace. -/
def jsonLoads (s : Str) : Bool :=
  match jsonVal (2 * s.length + 4) s with
  | some rest => (skipWs rest).isEmpty
  | none => false

-- ── Webhook server (`webhook_server.py`) ────────────────────────────────────

/-- `MAX_BODY` (`webhook_server.py` line 14): max payload size, 10 MB. -/
def MAX_BODY : Nat := 10 * 1024 * 1024

/-- One HTTP request as `WebhookServer._dispatch` sees it after the socket
reads succeed: the request line returned by the first `readline`, the
header mapping built from the header lines (later duplicates overwrite,
so the map is keyed uniquely), and the body bytes returned by the
`Content-Length` read, as their decoded text.  Timeout paths (408) are
read failures and live outside this pure model. -/
structure RawRequest where
  requestLine : Str
  headers : List (Str × Str)
  body : Str
deriving DecidableEq

/-- The response `_dispatch` produces: status code, status message, and
the `(forge, raw-payload)` pair handed to the `deliver` callback when the
request is accepted (`asyncio.create_task(self._deliver(...))`, line 164);
`delivered = none` on every rejection path. -/
structure Outcome where
  code : Nat
  msg : Str
  delivered : Option (Str × Str)
deriving DecidableEq

deriving instance DecidableEq for Except

/-- Lines 82–87: `parts = request_line.strip().split(" ")`; fewer than two
parts is a 400, otherwise `method, path = parts[0], parts[1]`. -/
def parseRequestLine (line : Str) : Option (Str × Str) :=
  match splitOnChar ' ' (strip line) with
  | m :: p :: _ => some (m, p)
  | _ => none

/-- Line 110: `urllib.parse.urlparse(path)` for an origin-form path —
the fragment (after the first `#`) is cut, then the query is everything
after the first `?`.  Returns `(path-part, query)`. -/
def splitQuery (p : Str) : Str × Str :=
  let noFrag := p.takeWhile (· != '#')
  (noFrag.takeWhile (· != '?'), (noFrag.dropWhile (· != '?')).drop 1)

/-- Line 111: `parsed.path.rstrip("/").lstrip("/").lower()`. -/
def cleanPath (p : Str) : Str :=
  lower (((p.dropWhile (· == '/')).reverse.dropWhile (· == '/')).reverse)

/-- Line 112: the three accepted forge path segments. -/
def validForge (f : Str) : Bool :=
  f == str "github" || f == str "gitea" || f == str "gitlab"

/-- Line 116: `urllib.parse.parse_qs(parsed.query)` flattened to its
`(key, first-value)` pairs in order.  With the default arguments,
fragments without `=` and pairs with an empty value are dropped; the
value keeps any further `=` signs.  (Percent-decoding is not modelled;
the claims use un-escaped tokens.) -/
def parseQS (q : Str) : List (Str × Str) :=
  (splitOnChar '&' q).filterMap fun item =>
    match splitOnChar '=' item with
    | [] => none
    | [_] => none
    | k :: rest =>
      let v := List.intercalate ['='] rest
      if v.isEmpty then none else some (k, v)

/-- Line 120: `int(headers.get("Content-Length", 0))`; `none` models the
uncaught `ValueError` of a non-numeric header (caught by `_handle`
as a 500). -/
def contentLengthPy (headers : List (Str × Str)) : Option Int :=
  match alookup (str "Content-Length") headers with
  | none => some 0
  | some v => pyInt v

/-- `WebhookServer._verify_hmac` (lines 166–182).  `hmacHex secret body`
stands for `hmac.new(secret, body, hashlib.sha256).hexdigest()`; the
theorems quantify over it.  `hmac.compare_digest` is modelled as equality
(its constant-time property has no functional content). -/
def verifyHmac (hmacHex : Str → Str → Str) (forge : Str)
    (headers : List (Str × Str)) (body : Str) (secret : Str) : Bool :=
  if forge = str "github" then
    let sig := (alookup (str "X-Hub-Signature-256") headers).getD []
    if (str "sha256=").isPrefixOf sig then sig.drop 7 == hmacHex secret body
    else false
  else if forge = str "gitea" then
    ((alookup (str "X-Gitea-Signature") headers).getD []) == hmacHex secret body
  else if forge = str "gitlab" then
    ((alookup (str "X-Gitlab-Token") headers).getD []) == secret
  else true

/-- The verification stage (lines 132–146): `some outcome` is an early 403
return, `none` means verification passed or was skipped.  The outer
truthiness test `if expected_secret:` makes both a missing and an empty
configured secret skip verification. -/
def verifyStage (hmacHex : Str → Str → Str) (secrets : List (Str × Str))
    (forge : Str) (urlSecret : Option Str) (headers : List (Str × Str))
    (body : Str) : Option Outcome :=
  match alookup forge secrets with
  | none => none
  | some s =>
    if s.isEmpty then none
    else
      match urlSecret with
      | some u =>
        if u = s then none
        else some { code := 403, msg := str "Forbidden", delivered := none }
      | none =>
        if verifyHmac hmacHex forge headers body s then none
        else some { code := 403, msg := str "Forbidden", delivered := none }

/-- Lines 149–154: the raw text handed to `json.loads` — for a
form-encoded `Content-Type`, the first `payload` field of the body
(default `"{}"`), otherwise the body itself. -/
def rawPayload (headers : List (Str × Str)) (body : Str) : Str :=
  let ct := (alookup (str "Content-Type") headers).getD []
  if hasSubstr (str "x-www-form-urlencoded") ct then
    (alookup (str "payload") (parseQS body)).getD (str "\x7b\x7d")
  else body

/-- `WebhookServer._dispatch` (lines 74–164) after the socket reads, as a
pure function of the request.  `.error ()` models an exception escaping
`_dispatch` (e.g. `int()` on a malformed `Content-Length`), which
`_handle` turns into a 500. -/
def dispatch (secrets : List (Str × Str)) (hmacHex : Str → Str → Str)
    (req : RawRequest) : Except Unit Outcome :=
  match parseRequestLine req.requestLine with
  | none => .ok { code := 400, msg := str "Bad Request", delivered := none }
  | some (method, path) =>
    if method ≠ str "POST" then
      .ok { code := 405, msg := str "Method Not Allowed", delivered := none }
    else
      let forge := cleanPath (splitQuery path).1
      if !validForge forge then
        .ok { code := 404, msg := str "Not Found", delivered := none }
      else
        let urlSecret := alookup (str "secret") (parseQS (splitQuery path).2)
        match contentLengthPy req.headers with
        | none => .error ()
        | some cl =>
          if cl > (MAX_BODY : Int) then
            .ok { code := 413, msg := str "Payload Too Large", delivered := none }
          else
            match verifyStage hmacHex secrets forge urlSecret req.headers req.body with
            | some o => .ok o
            | none =>
              let raw := rawPayload req.headers req.body
              if jsonLoads raw then
                .ok { code := 200, msg := str "OK", delivered := some (forge, raw) }
              else
                .ok { code := 400, msg := str "Bad JSON", delivered := none }

/-- `WebhookServer._handle` (lines 61–72): run `_dispatch`, turn an
escaped exception into a 500, and close the connection on every path
(the `finally` block); the `Bool` is "connection closed". -/
def handleReq (secrets : List (Str × Str)) (hmacHex : Str → Str → Str)
    (req : RawRequest) : Outcome × Bool :=
  (match dispatch secrets hmacHex req with
   | .ok o => o
   | .error _ => { code := 500, msg := str "Internal Server Error", delivered := none },
   true)

/-- `WebhookServer.__init__` (lines 45–49): the per-forge secret map with
falsy (empty) entries dropped. -/
def mkSecrets (raw : List (Str × Str)) : List (Str × Str) :=
  raw.filter fun p => !p.2.isEmpty

/-- The `[webhook_server]` secret keys of the TOML config, as
`Bot.run` reads them (`bot.py` lines 288–296). -/
structure WhCfg where
  legacySecret : Option Str
  githubSecret : Option Str
  giteaSecret : Option Str
  gitlabSecret : Option Str

/-- `Bot.run` lines 290–296: per-forge secrets with the legacy `secret`
key (default `""`) as fallback for each forge. -/
def botRunSecrets (c : WhCfg) : List (Str × Str) :=
  let legacy := c.legacySecret.getD []
  [(str "github", c.githubSecret.getD legacy),
   (str "gitea", c.giteaSecret.getD legacy),
   (str "gitlab", c.gitlabSecret.getD legacy)]

-- ── IRC connection engine (`irc_client.py`) ─────────────────────────────────

/-- `RECONNECT_DELAY_MIN` (`irc_client.py` line 11). -/
def RECONNECT_DELAY_MIN : Nat := 5

/-- `RECONNECT_DELAY_MAX` (`irc_client.py` line 12). -/
def RECONNECT_DELAY_MAX : Nat := 300

/-- Lines 48–49: after sleeping the current delay, the run loop doubles it
up to the ceiling. -/
def backoffAfterSleep (d : Nat) : Nat :=
  min (d * 2) RECONNECT_DELAY_MAX

/-- The delay `IRCClient.run` (lines 38–49) sleeps before retry number
`n + 1`, when every attempt since the last registration failed: the
initial `_reconnect_delay` is `RECONNECT_DELAY_MIN` (line 32, reset at
line 184), and each failed iteration sleeps the current delay and then
doubles it. -/
def delayBeforeRetry : Nat → Nat
  | 0 => RECONNECT_DELAY_MIN
  | n + 1 => backoffAfterSleep (delayBeforeRetry n)

/-- Fuelled worker for the chunking loop of `privmsg` (lines 72–73):
slice `limit` bytes off the front while bytes remain.  One fuel unit per
iteration; the wrapper passes `l.length`, which is enough fuel for any
positive `limit`. -/
def splitBytesF (fuel limit : Nat) (l : List Nat) : List (List Nat) :=
  match fuel, l with
  | _, [] => []
  | 0, _ => []
  | Nat.succ fuel, l => if limit = 0 then [] else l.take limit :: splitBytesF fuel limit (l.drop limit)

/-- Byte-level chunking of `privmsg` (lines 72–73): repeatedly slice
`limit` bytes off the front.  The source loops `while encoded:`, so for
`limit ≤ 0` (a prefix of 510 bytes or more, impossible for real IRC
targets) it would never terminate; that unreachable case is mapped
to `[]` here and every theorem assumes a positive limit. -/
def splitBytes (limit : Nat) (l : List Nat) : List (List Nat) :=
  splitBytesF l.length limit l

/-- The UTF-8 bytes of `f"PRIVMSG {target} :"` (line 69) for the given
encoded target. -/
def privmsgPfx (target : List Nat) : List Nat :=
  [80, 82, 73, 86, 77, 83, 71, 32] ++ target ++ [32, 58]

/-- The payload chunks `privmsg` cuts `text` into (lines 70–73), at the
byte level: `limit = 510 - len(prefix.encode())`. -/
def privmsgChunks (target text : List Nat) : List (List Nat) :=
  splitBytes (510 - (privmsgPfx target).length) text

/-- U+FFFD, the replacement character produced by `errors="replace"`. -/
def REPL : Nat := 65533

/-- A UTF-8 continuation byte (`0x80`–`0xBF`). -/
def isCont (b : Nat) : Bool := 128 ≤ b && b ≤ 191

/-- `bytes.decode("utf-8", errors="replace")` (line 74) as a list of code
points.  Mirrors CPython's decoder: ASCII passes through; a stray
continuation byte or an invalid lead (`C0`/`C1`, `F5`–`FF`) becomes one
U+FFFD per byte; a well-formed sequence prefix that is truncated (at end
of input or by a non-continuation byte) becomes a single U+FFFD and
scanning resumes at the offending byte; the constrained second-byte
ranges of `E0`/`ED`/`F0`/`F4` (overlong, surrogate and >U+10FFFF
exclusions) are enforced. -/
def utf8DecodeReplaceF : Nat → List Nat → List Nat
  | _, [] => []
  | 0, _ => []
  | Nat.succ fuel, b :: rest =>
    if b < 128 then b :: utf8DecodeReplaceF fuel rest
    else if b < 194 then REPL :: utf8DecodeReplaceF fuel rest
    else if b < 224 then
      match rest with
      | [] => [REPL]
      | c1 :: rest2 =>
        if isCont c1 then ((b - 192) * 64 + (c1 - 128)) :: utf8DecodeReplaceF fuel rest2
        else REPL :: utf8DecodeReplaceF fuel rest
    else if b < 240 then
      match rest with
      | [] => [REPL]
      | c1 :: rest2 =>
        if (if b = 224 then 160 ≤ c1 && c1 ≤ 191
            else if b = 237 then 128 ≤ c1 && c1 ≤ 159
            else isCont c1) then
          match rest2 with
          | [] => [REPL]
          | c2 :: rest3 =>
            if isCont c2 then
              ((b - 224) * 4096 + (c1 - 128) * 64 + (c2 - 128)) :: utf8DecodeReplaceF fuel rest3
            else REPL :: utf8DecodeReplaceF fuel rest2
        else REPL :: utf8DecodeReplaceF fuel rest
    else if b < 245 then
      match rest with
      | [] => [REPL]
      | c1 :: rest2 =>
        if (if b = 240 then 144 ≤ c1 && c1 ≤ 191
            else if b = 244 then 128 ≤ c1 && c1 ≤ 143
            else isCont c1) then
          match rest2 with
          | [] => [REPL]
          | c2 :: rest3 =>
            if isCont c2 then
              match rest3 with
              | [] => [REPL]
              | c3 :: rest4 =>
                if isCont c3 then
                  ((b - 240) * 262144 + (c1 - 128) * 4096 + (c2 - 128) * 64 + (c3 - 128))
                    :: utf8DecodeReplaceF fuel rest4
                else REPL :: utf8DecodeReplaceF fuel rest3
            else REPL :: utf8DecodeReplaceF fuel rest2
        else REPL :: utf8DecodeReplaceF fuel rest
    else REPL :: utf8DecodeReplaceF fuel rest

/-- `bytes.decode("utf-8", errors="replace")` with full fuel: one unit per
byte is enough, since every recursive step of the worker consumes at
least one byte. -/
def utf8DecodeReplace (l : List Nat) : List Nat :=
  utf8DecodeReplaceF l.length l

/-- UTF-8 encoding of one code point (`str.encode` in `send`, line 65). -/
def utf8Encode (cp : Nat) : List Nat :=
  if cp < 128 then [cp]
  else if cp < 2048 then [192 + cp / 64, 128 + cp % 64]
  else if cp < 65536 then [224 + cp / 4096, 128 + (cp / 64) % 64, 128 + cp % 64]
  else [240 + cp / 262144, 128 + (cp / 4096) % 64, 128 + (cp / 64) % 64, 128 + cp % 64]

/-- The round trip each chunk takes on its way to the wire:
`chunk.decode("utf-8", errors="replace")` in `privmsg` (line 74), then
the re-encode in `send` (line 65).  On a chunk that splits a multi-byte
character this is not the identity: the dangling bytes become U+FFFD
(three bytes each). -/
def decodeReplaceReencode (l : List Nat) : List Nat :=
  (utf8DecodeReplace l).flatMap utf8Encode

/-- The wire lines `privmsg` emits: for each chunk, the prefix, the
chunk's decode-replace/re-encode round trip, and the CRLF appended by
`send` (line 65). -/
def privmsgWireLines (target text : List Nat) : List (List Nat) :=
  (privmsgChunks target text).map fun c =>
    privmsgPfx target ++ decodeReplaceReencode c ++ [13, 10]

/-- SASL PLAIN credentials (`config["sasl_plain"]`). -/
structure SaslCfg where
  user : Str
  password : Str
deriving DecidableEq

/-- The slice of the per-network config that `_handle` reads. -/
structure IrcConfig where
  nickname : Str
  channels : List Str
  nickservPassword : Option Str
  saslPlain : Option SaslCfg
deriving DecidableEq

/-- The engine state `_handle` touches: the joined-channel set
(`_channels`, kept lower-cased), the reconnect delay, and the ready
flag. -/
structure ClientState where
  channels : List Str
  reconnectDelay : Nat
  ready : Bool
deriving DecidableEq

/-- Effects of one `_handle` call: the new state, the raw lines passed to
`send`, whether `on_connected` fired, the `(full-prefix, nick, target,
text)` of a forwarded PRIVMSG, and a pending `(grace-seconds, channel)`
rejoin scheduled after a KICK. -/
structure HandleOut where
  st : ClientState
  sent : List Str
  connectedCb : Bool
  message : Option (Str × Str × Str × Str)
  rejoinAfter : Option (Nat × Str)
deriving DecidableEq

/-- Line 149: the PONG token — after the first `:` when present,
otherwise after the first space. -/
def pingToken (raw : Str) : Str :=
  if hasSubstr [':'] raw then afterFirstChar ':' raw
  else afterFirstChar ' ' raw

/-- The nick of a `:nick!user@host` source prefix (lines 201–202,
`lstrip(":")` then `split("!")[0]`). -/
def nickOf (p : Str) : Str :=
  ((splitOnChar '!' (stripColons p)).headD [])

/-- Add a channel to the joined set (Python `set.add`). -/
def addChan (l : List Str) (ch : Str) : List Str :=
  if ch ∈ l then l else l ++ [ch]

/-- A `HandleOut` that only changes the state. -/
def noEffect (st : ClientState) : HandleOut :=
  { st := st, sent := [], connectedCb := false, message := none, rejoinAfter := none }

/-- `IRCClient._handle` (lines 145–233) for one inbound line.  `b64`
stands for the base64 encoding used by the SASL reply (the config is
assumed to contain `sasl_plain` whenever the server sends
`AUTHENTICATE`, as the source does). -/
def handleLine (b64 : Str → Str) (cfg : IrcConfig) (st : ClientState)
    (raw : Str) : HandleOut :=
  if (str "PING").isPrefixOf raw then
    { noEffect st with sent := [str "PONG :" ++ pingToken raw] }
  else
    let parts := splitOnChar ' ' raw
    if 3 ≤ parts.length ∧ parts.get? 1 = some (str "CAP") then
      let sub := (parts.get? 3).getD []
      { noEffect st with
        sent :=
          if (sub = str "ACK" ∨ sub = str ":ACK") ∧ hasSubstr (str "sasl") raw then
            [str "AUTHENTICATE PLAIN"]
          else [] }
    else if 2 ≤ parts.length ∧ parts.get? 0 = some (str "AUTHENTICATE") then
      match cfg.saslPlain with
      | some sp =>
        { noEffect st with
          sent := [str "AUTHENTICATE " ++
                   b64 (Char.ofNat 0 :: sp.user ++ Char.ofNat 0 :: sp.password)] }
      | none => noEffect st
    else if 2 ≤ parts.length ∧ parts.get? 1 = some (str "903") then
      { noEffect st with sent := [str "CAP END"] }
    else if 2 ≤ parts.length ∧ (parts.get? 1 = some (str "904") ∨ parts.get? 1 = some (str "905")) then
      { noEffect st with sent := [str "CAP END"] }
    else if 2 ≤ parts.length ∧ parts.get? 1 = some (str "001") then
      let nsLines :=
        match cfg.nickservPassword with
        | some pw => [str "PRIVMSG NickServ :IDENTIFY " ++ pw]
        | none => []
      { st := { st with reconnectDelay := RECONNECT_DELAY_MIN, ready := true },
        sent := nsLines ++ cfg.channels.map (fun ch => str "JOIN " ++ ch),
        connectedCb := true, message := none, rejoinAfter := none }
    else if 3 ≤ parts.length ∧ parts.get? 1 = some (str "JOIN") then
      let channel := stripColons ((parts.get? 2).getD [])
      let joiner := nickOf ((parts.get? 0).getD [])
      noEffect
        (if lower joiner = lower cfg.nickname then
           { st with channels := addChan st.channels (lower channel) }
         else st)
    else if 3 ≤ parts.length ∧ (parts.get? 1 = some (str "KICK") ∨ parts.get? 1 = some (str "PART")) then
      let channel := stripColons ((parts.get? 2).getD [])
      { st := { st with channels := st.channels.filter (fun c => c ≠ lower channel) },
        sent := [], connectedCb := false, message := none,
        rejoinAfter := if parts.get? 1 = some (str "KICK") then some (5, channel) else none }
    else if 4 ≤ parts.length ∧ parts.get? 1 = some (str "PRIVMSG") then
      let fullPre := stripColons ((parts.get? 0).getD [])
      let nick := (splitOnChar '!' fullPre).headD []
      let target := (parts.get? 2).getD []
      let text := stripColons (List.intercalate [' '] (parts.drop 3))
      { noEffect st with message := some (fullPre, nick, target, text) }
    else if 2 ≤ parts.length ∧ parts.get? 1 = some (str "433") then
      { noEffect st with sent := [str "NICK " ++ cfg.nickname ++ ['_']] }
    else noEffect st

-- ── Topology & delivery router (`bot.py`) ───────────────────────────────────

/-- A network entry of the new config as `Bot.reload` uses it: its `name`
and its `channels` list. -/
structure NetCfg where
  name : Str
  channels : List Str
deriving DecidableEq

/-- A live engine as the router sees it: its network name and its
joined-channel set (`client._channels`, already lower-cased). -/
structure ClientSt where
  name : Str
  channels : List Str
deriving DecidableEq

/-- An IRC command the reload sends: `client.join(ch)` or
`client.send(f"PART {ch} ...")`. -/
inductive Cmd where
  | join (net ch : Str)
  | part (net ch : Str)
deriving DecidableEq

/-- The channel reconciliation for one kept network (`bot.py` lines
188–199): `JOIN` for every configured channel not joined, then `PART`
plus a `db.purge_channel` for every joined channel no longer
configured.  Returns `(commands, purged (network, channel) pairs)`. -/
def reconcileChannels (net : Str) (newChans curChans : List Str) :
    List Cmd × List (Str × Str) :=
  let joins := (newChans.filter fun ch => ch ∉ curChans).map fun ch => Cmd.join net ch
  let parted := curChans.filter fun ch => ch ∉ newChans
  (joins ++ parted.map (fun ch => Cmd.part net ch), parted.map fun ch => (net, ch))

/-- The `(config, engine)` pairs of networks present in both the topology
and the new config, in config order (`for name, net_cfg in
new_nets.items()` hitting the `else` branch at line 186). -/
def keptPairs (st : List ClientSt) (cfg : List NetCfg) : List (NetCfg × ClientSt) :=
  cfg.filterMap fun nc => (st.find? fun c => c.name == nc.name).map fun c => (nc, c)

/-- Everything `Bot.reload` (lines 142–211) produces, given the running
topology `state` and the network list of the re-read config: the new
topology, the added / removed / updated name lists, the JOIN/PART
commands sent, the purged networks and channels, and the returned
summary. -/
structure ReloadRes where
  state : List ClientSt
  added : List Str
  removed : List Str
  updated : List Str
  cmds : List Cmd
  purgedNetworks : List Str
  purgedChannels : List (Str × Str)
  summary : Str
deriving DecidableEq

/-- `Bot.reload` (lines 142–211) after a successful config re-read.
Network names are taken distinct (`new_nets` is a dict keyed by name);
a started engine begins with an empty joined set (`IRCClient.__init__`
line 31); `updated` records a kept network iff its configured channel
set differs from the joined set, which is exactly "some JOIN or PART was
sent for it".  The engines of kept networks keep their `_channels`
untouched — reload only sends JOIN/PART, membership changes when the
server echoes them back. -/
def reload (st : List ClientSt) (cfg : List NetCfg) : ReloadRes :=
  let newNames := cfg.map NetCfg.name
  let stNames := st.map ClientSt.name
  let removed := (st.filter fun c => c.name ∉ newNames).map ClientSt.name
  let kept := st.filter fun c => c.name ∈ newNames
  let addedCfgs := cfg.filter fun nc => nc.name ∉ stNames
  let added := addedCfgs.map NetCfg.name
  let perNet := (keptPairs st cfg).map fun p =>
    (p.1.name, reconcileChannels p.1.name (p.1.channels.map lower) p.2.channels)
  let cmds := (perNet.map fun x => x.2.1).flatten
  let updated := ((perNet.filter fun x => x.2.1 ≠ []).map fun x => x.1)
  let sparts :=
    (if added ≠ [] then [str "connected: " ++ List.intercalate (str ", ") added] else [])
    ++ (if removed ≠ [] then [str "disconnected: " ++ List.intercalate (str ", ") removed] else [])
    ++ (if updated ≠ [] then [str "channels updated: " ++ List.intercalate (str ", ") updated] else [])
  { state := kept ++ addedCfgs.map fun nc => { name := nc.name, channels := [] },
    added := added, removed := removed, updated := updated, cmds := cmds,
    purgedNetworks := removed,
    purgedChannels := (perNet.map fun x => x.2.2).flatten,
    summary := str "Reloaded. " ++
      (if sparts = [] then str "no network changes." else List.intercalate (str "; ") sparts) }

/-- A persisted webhook target as `db.webhook_targets` returns it
(network, channel, subscribed coarse event categories, branch
allow-list). -/
structure Target where
  network : Str
  channel : Str
  events : List Str
  branches : List Str
deriving DecidableEq

/-- The category tags a target subscribes to: the union over its coarse
`events` of the per-forge `event_categories` expansion (`bot.py` lines
262–264). -/
def allowedCats (ec : Str → List Str) (t : Target) : List Str :=
  (t.events.map ec).flatten

/-- The two `continue` filters of `Bot._on_webhook` (lines 258–266): a
target survives iff (the event's branch is falsy, or the target's
allow-list is empty, or it contains the branch) and the event's tags
intersect the target's allowed categories.  `branch = none` models a
falsy (`None` or empty) parser result. -/
def targetPasses (ec : Str → List Str) (events : List Str)
    (branch : Option Str) (t : Target) : Bool :=
  (match branch with
   | none => true
   | some b => !(!b.isEmpty && !t.branches.isEmpty && !(t.branches.contains b)))
  && events.any (fun e => (allowedCats ec t).contains e)

/-- Line 268–275: the delivered line for one parser output, colored
source tag included in `src`. -/
def fmtDelivLine (src : Str) (o : Str × Option Str) : Str :=
  let line := ['('] ++ src ++ [')', ' '] ++ o.1
  match o.2 with
  | some u => if u.isEmpty then line else line ++ str " - " ++ u
  | none => line

/-- The `(network, channel, line)` deliveries `_on_webhook` makes: each
surviving target receives every rendered output line (lines 258–276). -/
def webhookLines (ec : Str → List Str) (events : List Str)
    (branch : Option Str) (outputs : List (Str × Option Str)) (src : Str)
    (targets : List Target) : List (Str × Str × Str) :=
  targets.flatMap fun t =>
    if targetPasses ec events branch t then
      outputs.map fun o => (t.network, t.channel, fmtDelivLine src o)
    else []


-- ── Theorems settling the claims ────────────────────────────────────────────

lemma alookup_eq_none_of_not_mem_keys {α : Type} (l : List (Str × α)) (k : Str)
    (h : k ∉ l.map Prod.fst) : alookup k l = none := by
  induction l with
  | nil => rfl
  | cons hd tl ih =>
    obtain ⟨k1, v1⟩ := hd
    simp only [List.map_cons, List.mem_cons, not_or] at h
    simp only [alookup, if_neg h.1]
    exact ih h.2

lemma alookup_mkSecrets_eq_none (raw : List (Str × Str)) (k : Str)
    (hnd : (raw.map Prod.fst).Nodup) (h : alookup k raw = some []) :
    alookup k (mkSecrets raw) = none := by
  induction raw with
  | nil => simp [alookup] at h
  | cons hd tl ih =>
    obtain ⟨k1, v1⟩ := hd
    simp only [List.map_cons, List.nodup_cons] at hnd
    by_cases hk : k = k1
    · subst hk
      simp [alookup] at h
      subst h
      simp only [mkSecrets, List.filter_cons, List.isEmpty_nil, Bool.not_true,
        Bool.false_eq_true, if_false]
      apply alookup_eq_none_of_not_mem_keys
      intro hm
      apply hnd.1
      obtain ⟨q, hq, hq1⟩ := List.mem_map.mp hm
      exact List.mem_map.mpr ⟨q, (List.filter_sublist tl).subset hq, hq1⟩
    · simp only [alookup, if_neg hk] at h
      simp only [mkSecrets, List.filter_cons]
      by_cases hkeep : (!v1.isEmpty) = true
      · rw [if_pos hkeep]
        simp only [alookup, if_neg hk]
        exact ih hnd.2 h
      · rw [if_neg hkeep]
        exact ih hnd.2 h

lemma verifyStage_eq_none_of_alookup_none (hmacHex : Str → Str → Str)
    (secrets : List (Str × Str)) (forge : Str) (us : Option Str)
    (headers : List (Str × Str)) (body : Str)
    (h : alookup forge secrets = none) :
    verifyStage hmacHex secrets forge us headers body = none := by
  simp [verifyStage, h]

lemma handleReq_code_ne_403_of_alookup_none
    (secrets : List (Str × Str)) (hmacHex : Str → Str → Str) (req : RawRequest)
    (method p : Str)
    (hpr : parseRequestLine req.requestLine = some (method, p))
    (hsec : alookup (cleanPath (splitQuery p).1) secrets = none) :
    (handleReq secrets hmacHex req).1.code ≠ 403 := by
  cases hd : dispatch secrets hmacHex req with
  | error e => simp [handleReq, hd]
  | ok o =>
    simp only [handleReq, hd]
    simp only [dispatch, hpr] at hd
    rw [verifyStage_eq_none_of_alookup_none _ _ _ _ _ _ hsec] at hd
    repeat' split at hd
    case' ok.isFalse.isFalse.h_2.isFalse.h_1 =>
      rename_i o1 heq1
      exact Option.noConfusion heq1
    all_goals first
      | (injection hd with hinj; subst hinj; simp)
      | simp_all

/-- C1: for every webhook request to a forge with a configured (non-empty)
secret, a present-but-wrong URL `secret` query parameter is answered with
403 Forbidden and nothing is delivered, whatever the signature headers
and whatever the HMAC function — the URL token short-circuits all other
checks. -/
theorem url_secret_mismatch_gives_403
    (secrets : List (Str × Str)) (hmacHex : Str → Str → Str) (req : RawRequest)
    (p s u : Str) (cl : Int)
    (hline : parseRequestLine req.requestLine = some (str "POST", p))
    (hforge : validForge (cleanPath (splitQuery p).1) = true)
    (hsec : alookup (cleanPath (splitQuery p).1) secrets = some s)
    (hs : s ≠ [])
    (hurl : alookup (str "secret") (parseQS (splitQuery p).2) = some u)
    (hu : u ≠ s)
    (hcl : contentLengthPy req.headers = some cl)
    (hmax : cl ≤ (MAX_BODY : Int)) :
    dispatch secrets hmacHex req =
      .ok { code := 403, msg := str "Forbidden", delivered := none } := by
  simp only [dispatch, hline, hforge, hsec, hurl, hcl, verifyStage]
  simp [hs, hu, not_lt.mpr hmax, List.isEmpty_iff]

/-- Witness for C1: a concrete `github` request carrying both a wrong URL
token and a signature header that the (arbitrary) HMAC function would
accept; the listener answers 403. -/
theorem url_secret_mismatch_gives_403_witness :
    dispatch [(str "github", str "tok")] (fun _ _ => str "deadbeef")
      { requestLine := str "POST /github?secret=wrong HTTP/1.1",
        headers := [(str "X-Hub-Signature-256", str "sha256=deadbeef")],
        body := str "\x7b\x7d" } =
      .ok { code := 403, msg := str "Forbidden", delivered := none } :=
  url_secret_mismatch_gives_403 _ _ _
    (str "/github?secret=wrong") (str "tok") (str "wrong") 0
    (by decide) (by decide) (by decide) (by decide) (by decide) (by decide)
    (by decide) (by decide)

/-- C2 counterexample: with no secret configured for `github`, a POST with
a non-JSON body is answered 400 Bad JSON, not 200 — so "any body is
accepted (200)" fails as stated. -/
theorem no_secret_bad_json_counterexample :
    dispatch [] (fun _ _ => [])
      { requestLine := str "POST /github HTTP/1.1",
        headers := [(str "X-Hub-Signature-256", str "sha256=abc")],
        body := str "x" } =
      .ok { code := 400, msg := str "Bad JSON", delivered := none } := by
  decide

/-- C2 (amended): for every webhook POST to a valid forge path with no
configured secret, any body whose extracted payload parses as JSON is
accepted with 200 — regardless of what signature headers the request
carries and of the HMAC function (verification is skipped entirely). -/
theorem no_secret_accepts_any_json_body
    (secrets : List (Str × Str)) (hmacHex : Str → Str → Str) (req : RawRequest)
    (p : Str) (cl : Int)
    (hline : parseRequestLine req.requestLine = some (str "POST", p))
    (hforge : validForge (cleanPath (splitQuery p).1) = true)
    (hsec : alookup (cleanPath (splitQuery p).1) secrets = none)
    (hcl : contentLengthPy req.headers = some cl)
    (hmax : cl ≤ (MAX_BODY : Int))
    (hjson : jsonLoads (rawPayload req.headers req.body) = true) :
    dispatch secrets hmacHex req =
      .ok { code := 200, msg := str "OK",
            delivered := some (cleanPath (splitQuery p).1,
                               rawPayload req.headers req.body) } := by
  simp only [dispatch, hline, hforge, hsec, hcl, verifyStage]
  simp [not_lt.mpr hmax, hjson]

/-- Witness for the amended C2: a concrete `gitlab` request with a bogus
signature header and a JSON body is accepted and delivered. -/
theorem no_secret_accepts_any_json_body_witness :
    dispatch [] (fun _ _ => [])
      { requestLine := str "POST /gitlab HTTP/1.1",
        headers := [(str "X-Gitlab-Token", str "whatever")],
        body := str "\x7b\x7d" } =
      .ok { code := 200, msg := str "OK",
            delivered := some (str "gitlab", str "\x7b\x7d") } :=
  no_secret_accepts_any_json_body _ _ _ (str "/gitlab") 0
    (by decide) (by decide) (by decide) (by decide) (by decide) (by decide)

/-- C9: every malformed input is rejected with its status — a malformed
request line with 400, an oversized declared body with 413, an
unparsable JSON payload with 400 — and the connection is closed after
every request whatever path was taken.  (Connections are handled by
independent per-connection tasks; the handler here is a pure function of
its own request, so one request cannot affect another.) -/
theorem malformed_inputs_rejected_and_closed
    (secrets : List (Str × Str)) (hmacHex : Str → Str → Str) (req : RawRequest) :
    (handleReq secrets hmacHex req).2 = true ∧
    (parseRequestLine req.requestLine = none →
      handleReq secrets hmacHex req =
        ({ code := 400, msg := str "Bad Request", delivered := none }, true)) ∧
    (∀ p cl, parseRequestLine req.requestLine = some (str "POST", p) →
      validForge (cleanPath (splitQuery p).1) = true →
      contentLengthPy req.headers = some cl →
      (MAX_BODY : Int) < cl →
      handleReq secrets hmacHex req =
        ({ code := 413, msg := str "Payload Too Large", delivered := none }, true)) ∧
    (∀ p cl, parseRequestLine req.requestLine = some (str "POST", p) →
      validForge (cleanPath (splitQuery p).1) = true →
      contentLengthPy req.headers = some cl →
      cl ≤ (MAX_BODY : Int) →
      verifyStage hmacHex secrets (cleanPath (splitQuery p).1)
        (alookup (str "secret") (parseQS (splitQuery p).2)) req.headers req.body = none →
      jsonLoads (rawPayload req.headers req.body) = false →
      handleReq secrets hmacHex req =
        ({ code := 400, msg := str "Bad JSON", delivered := none }, true)) := by
  refine ⟨rfl, ?_, ?_, ?_⟩
  · intro h
    simp [handleReq, dispatch, h]
  · intro p cl h1 h2 h3 h4
    simp only [handleReq, dispatch, h1, h3]
    simp [h2, h4]
  · intro p cl h1 h2 h3 h4 h5 h6
    simp only [handleReq, dispatch, h1, h3]
    simp [h2, not_lt.mpr h4, h5, h6]

/-- Witness for C9: three concrete requests — a garbage request line, an
11-digit Content-Length, and a non-JSON body — get 400, 413 and 400, each
with the connection closed. -/
theorem malformed_inputs_rejected_and_closed_witness :
    (handleReq [] (fun _ _ => [])
        { requestLine := str "GARBAGE", headers := [], body := [] } =
      ({ code := 400, msg := str "Bad Request", delivered := none }, true)) ∧
    (handleReq [] (fun _ _ => [])
        { requestLine := str "POST /github HTTP/1.1",
          headers := [(str "Content-Length", str "99999999999")], body := [] } =
      ({ code := 413, msg := str "Payload Too Large", delivered := none }, true)) ∧
    (handleReq [] (fun _ _ => [])
        { requestLine := str "POST /gitea HTTP/1.1", headers := [],
          body := str "notjson" } =
      ({ code := 400, msg := str "Bad JSON", delivered := none }, true)) :=
  ⟨(malformed_inputs_rejected_and_closed _ _ _).2.1 (by decide),
   (malformed_inputs_rejected_and_closed _ _ _).2.2.1
     (str "/github") 99999999999 (by decide) (by decide) (by decide) (by decide),
   (malformed_inputs_rejected_and_closed _ _ _).2.2.2
     (str "/gitea") 0 (by decide) (by decide) (by decide) (by decide)
     (by decide) (by decide)⟩

/-- C10: a forge whose configured secret is the empty string — including
the construction in `Bot.run`, whose legacy fallback makes every missing
key the empty string — is dropped by `WebhookServer.__init__`, so no
verification is performed for that forge and no request to it is
answered 403. -/
theorem empty_secret_is_no_secret
    (raw : List (Str × Str)) (forge : Str)
    (hnd : (raw.map Prod.fst).Nodup) (h : alookup forge raw = some []) :
    alookup forge (mkSecrets raw) = none ∧
    (∀ hmacHex us headers body,
      verifyStage hmacHex (mkSecrets raw) forge us headers body = none) ∧
    (∀ hmacHex req method p,
      parseRequestLine req.requestLine = some (method, p) →
      cleanPath (splitQuery p).1 = forge →
      (handleReq (mkSecrets raw) hmacHex req).1.code ≠ 403) ∧
    mkSecrets (botRunSecrets
      { legacySecret := none, githubSecret := none,
        giteaSecret := none, gitlabSecret := none }) = [] := by
  have h0 := alookup_mkSecrets_eq_none raw forge hnd h
  refine ⟨h0, fun hh us hs b => verifyStage_eq_none_of_alookup_none _ _ _ _ _ _ h0,
    ?_, by decide⟩
  intro hmacHex req method p h1 h2
  exact handleReq_code_ne_403_of_alookup_none _ _ _ _ _ h1 (by rw [h2]; exact h0)

/-- Witness for C10: with `github` configured to the empty string (and
`gitea` to a real secret), the `github` entry is dropped and a request
with a wrong URL token is still not rejected. -/
theorem empty_secret_is_no_secret_witness :
    alookup (str "github")
      (mkSecrets [(str "github", []), (str "gitea", str "x")]) = none ∧
    (handleReq (mkSecrets [(str "github", []), (str "gitea", str "x")])
        (fun _ _ => [])
        { requestLine := str "POST /github?secret=anything HTTP/1.1",
          headers := [], body := str "\x7b\x7d" }).1.code ≠ 403 :=
  ⟨(empty_secret_is_no_secret
      [(str "github", []), (str "gitea", str "x")] (str "github")
      (by decide) (by decide)).1,
   (empty_secret_is_no_secret
      [(str "github", []), (str "gitea", str "x")] (str "github")
      (by decide) (by decide)).2.2.1 _ _ (str "POST")
      (str "/github?secret=anything") (by decide) (by decide)⟩

lemma delayBeforeRetry_eq (k : Nat) :
    delayBeforeRetry k = min (5 * 2 ^ k) 300 := by
  induction k with
  | zero => decide
  | succ n ih =>
    rw [delayBeforeRetry, ih, backoffAfterSleep, pow_succ, RECONNECT_DELAY_MAX]
    omega

/-- C3: for every N ≥ 1, the Nth consecutive retry delay of the run loop
is `min(5·2^(N−1), 300)` seconds, and handling a 001 welcome line resets
the stored reconnect delay to 5. -/
theorem backoff_law_and_welcome_reset
    (N : Nat) (hN : 1 ≤ N)
    (b64 : Str → Str) (cfg : IrcConfig) (st : ClientState) (raw : Str)
    (hping : ((str "PING").isPrefixOf raw) = false)
    (h001 : (splitOnChar ' ' raw).get? 1 = some (str "001"))
    (hauth : (splitOnChar ' ' raw).get? 0 ≠ some (str "AUTHENTICATE")) :
    delayBeforeRetry (N - 1) = min (5 * 2 ^ (N - 1)) 300 ∧
    (handleLine b64 cfg st raw).st.reconnectDelay = RECONNECT_DELAY_MIN := by
  refine ⟨delayBeforeRetry_eq (N - 1), ?_⟩
  have hlen : 2 ≤ (splitOnChar ' ' raw).length := by
    obtain ⟨h1, -⟩ := List.get?_eq_some.mp h001
    omega
  have hCAP : str "001" ≠ str "CAP" := by decide
  have h903 : str "001" ≠ str "903" := by decide
  have h904 : str "001" ≠ str "904" := by decide
  have h905 : str "001" ≠ str "905" := by decide
  simp only [handleLine, hping, Bool.false_eq_true, if_false, h001, hauth, hlen]
  simp [hCAP, h903, h904, h905, hauth]

/-- Witness for C3: the 7th retry hits the 300-second ceiling, and a
concrete 001 line resets a delay of 160 back to 5. -/
theorem backoff_law_and_welcome_reset_witness :
    delayBeforeRetry (7 - 1) = min (5 * 2 ^ (7 - 1)) 300 ∧
    (handleLine id
      { nickname := str "bot", channels := [str "#x"],
        nickservPassword := none, saslPlain := none }
      { channels := [], reconnectDelay := 160, ready := false }
      (str ":srv 001 bot :welcome")).st.reconnectDelay = RECONNECT_DELAY_MIN :=
  backoff_law_and_welcome_reset 7 (by decide) id _ _ _
    (by decide) (by decide) (by decide)

lemma splitBytesF_flatten (limit : Nat) (hl : limit ≠ 0) :
    ∀ (fuel : Nat) (l : List Nat), l.length ≤ fuel →
      (splitBytesF fuel limit l).flatten = l := by
  intro fuel
  induction fuel with
  | zero =>
    intro l h
    have h0 : l = [] := List.eq_nil_of_length_eq_zero (Nat.le_zero.mp h)
    subst h0
    rfl
  | succ n ih =>
    intro l h
    cases l with
    | nil => rfl
    | cons b t =>
      simp only [splitBytesF]
      rw [if_neg hl]
      simp only [List.flatten_cons]
      rw [ih ((b :: t).drop limit) ?_, List.take_append_drop]
      simp only [List.length_drop, List.length_cons]
      simp only [List.length_cons] at h
      omega

lemma splitBytes_flatten (limit : Nat) (hl : limit ≠ 0) (l : List Nat) :
    (splitBytes limit l).flatten = l :=
  splitBytesF_flatten limit hl l.length l le_rfl

lemma splitBytesF_chunk_len (limit : Nat) :
    ∀ (fuel : Nat) (l : List Nat), ∀ c ∈ splitBytesF fuel limit l,
      c.length ≤ limit := by
  intro fuel
  induction fuel with
  | zero =>
    intro l c hc
    cases l with
    | nil => simp [splitBytesF] at hc
    | cons b t => simp [splitBytesF] at hc
  | succ n ih =>
    intro l c hc
    cases l with
    | nil => simp [splitBytesF] at hc
    | cons b t =>
      simp only [splitBytesF] at hc
      by_cases hl : limit = 0
      · rw [if_pos hl] at hc
        simp at hc
      · rw [if_neg hl] at hc
        rcases List.mem_cons.mp hc with rfl | hmem
        · simp only [List.length_take]
          omega
        · exact ih _ c hmem

lemma splitBytes_chunk_len (limit : Nat) (l : List Nat) :
    ∀ c ∈ splitBytes limit l, c.length ≤ limit :=
  splitBytesF_chunk_len limit l.length l

lemma splitBytes_ne_nil (limit : Nat) (hl : limit ≠ 0) (l : List Nat)
    (h0 : l ≠ []) : splitBytes limit l ≠ [] := by
  cases l with
  | nil => exact absurd rfl h0
  | cons b t =>
    show splitBytesF (t.length + 1) limit (b :: t) ≠ []
    simp only [splitBytesF]
    rw [if_neg hl]
    simp

lemma splitBytesF_mem (limit : Nat) :
    ∀ (fuel : Nat) (l : List Nat), ∀ c ∈ splitBytesF fuel limit l,
      ∀ b ∈ c, b ∈ l := by
  intro fuel
  induction fuel with
  | zero =>
    intro l c hc
    cases l with
    | nil => simp [splitBytesF] at hc
    | cons a t => simp [splitBytesF] at hc
  | succ n ih =>
    intro l c hc b hb
    cases l with
    | nil => simp [splitBytesF] at hc
    | cons a t =>
      simp only [splitBytesF] at hc
      by_cases hl : limit = 0
      · rw [if_pos hl] at hc
        simp at hc
      · rw [if_neg hl] at hc
        rcases List.mem_cons.mp hc with rfl | hmem
        · exact (List.take_sublist limit (a :: t)).subset hb
        · exact (List.drop_sublist limit (a :: t)).subset (ih _ c hmem b hb)

lemma utf8DecodeReplaceF_ascii :
    ∀ (fuel : Nat) (l : List Nat), l.length ≤ fuel → (∀ b ∈ l, b < 128) →
      utf8DecodeReplaceF fuel l = l := by
  intro fuel
  induction fuel with
  | zero =>
    intro l hlen h
    have h0 : l = [] := List.eq_nil_of_length_eq_zero (Nat.le_zero.mp hlen)
    subst h0
    rfl
  | succ n ih =>
    intro l hlen h
    cases l with
    | nil => rfl
    | cons b rest =>
      simp only [utf8DecodeReplaceF]
      rw [if_pos (h b (List.mem_cons_self b rest)),
        ih rest (by simp only [List.length_cons] at hlen; omega)
          (fun x hx => h x (List.mem_cons_of_mem b hx))]

lemma utf8DecodeReplace_ascii (l : List Nat) (h : ∀ b ∈ l, b < 128) :
    utf8DecodeReplace l = l :=
  utf8DecodeReplaceF_ascii l.length l le_rfl h

lemma flatMap_utf8Encode_ascii (l : List Nat) (h : ∀ b ∈ l, b < 128) :
    l.flatMap utf8Encode = l := by
  induction l with
  | nil => rfl
  | cons b rest ih =>
    rw [List.flatMap_cons, ih fun x hx => h x (List.mem_cons_of_mem b hx)]
    simp only [utf8Encode]
    rw [if_pos (h b (List.mem_cons_self b rest))]
    rfl

lemma decodeReplaceReencode_ascii (l : List Nat) (h : ∀ b ∈ l, b < 128) :
    decodeReplaceReencode l = l := by
  rw [decodeReplaceReencode, utf8DecodeReplace_ascii l h]
  exact flatMap_utf8Encode_ascii l h

/-- C4 (amended): for every target whose `PRIVMSG <target> :` prefix is at
most 509 bytes (every real IRC target) and every non-empty ASCII text
(no byte ≥ 0x80, so no multi-byte character can straddle a chunk
boundary), `privmsg` emits one or more lines, the re-encoded chunk
payloads concatenate back to exactly the text bytes, and every wire
line — prefix, decode-replace/re-encoded payload and CRLF — is at most
512 bytes.  (An empty text emits no line; a chunk boundary inside a
multi-byte character turns the dangling bytes into U+FFFD, corrupting
the payload and inflating the line past 512 bytes; a 510-byte-or-longer
prefix would make the source's `while encoded:` loop spin forever — the
counterexample exhibits the first two, so the claim is restricted to
these inputs.) -/
theorem privmsg_fragments_cover_text_within_512
    (target text : List Nat)
    (hp : (privmsgPfx target).length ≤ 509)
    (ht : text ≠ [])
    (hascii : ∀ b ∈ text, b < 128) :
    1 ≤ (privmsgWireLines target text).length ∧
    ((privmsgChunks target text).map decodeReplaceReencode).flatten = text ∧
    (∀ line ∈ privmsgWireLines target text, line.length ≤ 512) := by
  have hl : 510 - (privmsgPfx target).length ≠ 0 := by omega
  have hre : ∀ c ∈ privmsgChunks target text, decodeReplaceReencode c = c := by
    intro c hc
    exact decodeReplaceReencode_ascii c fun b hb =>
      hascii b (splitBytesF_mem _ _ _ c hc b hb)
  refine ⟨?_, ?_, ?_⟩
  · simp only [privmsgWireLines, List.length_map]
    have hne : privmsgChunks target text ≠ [] := splitBytes_ne_nil _ hl text ht
    have := List.length_pos.mpr hne
    omega
  · rw [List.map_congr_left hre, List.map_id']
    exact splitBytes_flatten _ hl text
  · intro line hline
    simp only [privmsgWireLines, List.mem_map] at hline
    obtain ⟨c, hc, rfl⟩ := hline
    rw [hre c hc]
    have hcl := splitBytes_chunk_len _ _ c hc
    simp only [List.length_append, List.length_cons, List.length_nil]
    omega

/-- C4 counterexample: two failure modes of the claim as stated, evaluated
on the code.  The empty text emits no line at all, refuting "one or more
PRIVMSG lines" (the source loop `while encoded:` never runs).  And the
text of 494 `a` bytes followed by "一" (`E4 B8 80`) has its multi-byte
character straddle the 495-byte chunk boundary: the dangling `E4` and the
stray `B8 80` become U+FFFD on the decode-replace/re-encode round trip,
so the two wire lines are 514 and 23 bytes — the first exceeds 512 — and
the payloads no longer concatenate to the text. -/
theorem privmsg_empty_text_and_split_char_counterexample :
    (privmsgWireLines [35, 99, 104, 97, 110] [] = [] ∧
     ¬ 1 ≤ (privmsgWireLines [35, 99, 104, 97, 110] []).length) ∧
    ((privmsgWireLines [35, 99, 104, 97, 110]
        (List.replicate 494 97 ++ [228, 184, 128])).map List.length = [514, 23] ∧
     ¬ (∀ line ∈ privmsgWireLines [35, 99, 104, 97, 110]
          (List.replicate 494 97 ++ [228, 184, 128]), line.length ≤ 512) ∧
     ((privmsgChunks [35, 99, 104, 97, 110]
         (List.replicate 494 97 ++ [228, 184, 128])).map
           decodeReplaceReencode).flatten ≠
       List.replicate 494 97 ++ [228, 184, 128]) := by
  decide

/-- Witness for the amended C4: the target `#chan` (15-byte prefix) with a
2000-byte ASCII text gets chunked into lines whose payloads reassemble to
the text, each line within 512 bytes. -/
theorem privmsg_fragments_cover_text_within_512_witness :
    1 ≤ (privmsgWireLines [35, 99, 104, 97, 110] (List.replicate 2000 97)).length ∧
    ((privmsgChunks [35, 99, 104, 97, 110] (List.replicate 2000 97)).map
        decodeReplaceReencode).flatten = List.replicate 2000 97 ∧
    (∀ line ∈ privmsgWireLines [35, 99, 104, 97, 110] (List.replicate 2000 97),
      line.length ≤ 512) :=
  privmsg_fragments_cover_text_within_512 _ _ (by decide) (by simp)
    (fun b hb => by rw [List.eq_of_mem_replicate hb]; decide)

/-- C5 (code bug): `_handle`'s KICK/PART branch is commented "(our own)"
but never checks which user the line concerns — evaluating the code on a
PART by `alice` (not the bot `gitbot`) removes `#chan` from the bot's
joined set, and a KICK of another user still schedules a rejoin of a
channel the bot is already in. -/
theorem part_by_other_user_removes_channel_bug :
    nickOf (str ":alice!u@h") = str "alice" ∧
    lower (str "alice") ≠ lower (str "gitbot") ∧
    (handleLine id
      { nickname := str "gitbot", channels := [str "#chan"],
        nickservPassword := none, saslPlain := none }
      { channels := [str "#chan"], reconnectDelay := 5, ready := true }
      (str ":alice!u@h PART #chan :bye")).st.channels = [] ∧
    (handleLine id
      { nickname := str "gitbot", channels := [str "#chan"],
        nickservPassword := none, saslPlain := none }
      { channels := [str "#chan"], reconnectDelay := 5, ready := true }
      (str ":op!o@h KICK #chan alice :reason")).st.channels = [] ∧
    (handleLine id
      { nickname := str "gitbot", channels := [str "#chan"],
        nickservPassword := none, saslPlain := none }
      { channels := [str "#chan"], reconnectDelay := 5, ready := true }
      (str ":op!o@h KICK #chan alice :reason")).rejoinAfter =
      some (5, str "#chan") := by
  decide

/-- C8: for a routed event with a (truthy) branch, a target with a
non-empty allow-list missing that branch is skipped; a target survives
iff its allow-list is empty or contains the branch, and its subscribed
categories meet the event's tags; and every delivered line belongs to a
surviving target. -/
theorem webhook_branch_and_category_filters
    (ec : Str → List Str) (events : List Str) (b : Str) (hb : b ≠ [])
    (outputs : List (Str × Option Str)) (src : Str)
    (targets : List Target) (t : Target) :
    (t.branches ≠ [] → b ∉ t.branches → targetPasses ec events (some b) t = false) ∧
    (targetPasses ec events (some b) t = true ↔
      ((t.branches = [] ∨ b ∈ t.branches) ∧ ∃ e ∈ events, e ∈ allowedCats ec t)) ∧
    (∀ d ∈ webhookLines ec events (some b) outputs src targets,
      ∃ t' ∈ targets, targetPasses ec events (some b) t' = true ∧
        d.1 = t'.network ∧ d.2.1 = t'.channel) := by
  have hiff : targetPasses ec events (some b) t = true ↔
      ((t.branches = [] ∨ b ∈ t.branches) ∧ ∃ e ∈ events, e ∈ allowedCats ec t) := by
    simp [targetPasses, hb, List.isEmpty_iff, List.any_eq_true, Decidable.not_imp_not]
  refine ⟨?_, hiff, ?_⟩
  · intro hbr hnb
    cases hp : targetPasses ec events (some b) t with
    | false => rfl
    | true =>
      rcases (hiff.mp hp).1 with h | h
      · exact absurd h hbr
      · exact absurd h hnb
  · intro d hd
    simp only [webhookLines, List.mem_flatMap] at hd
    obtain ⟨t', ht', hd⟩ := hd
    cases hp : targetPasses ec events (some b) t' with
    | false => rw [hp] at hd; simp at hd
    | true =>
      rw [hp] at hd
      simp only [if_true] at hd
      obtain ⟨o, ho, rfl⟩ := List.mem_map.mp hd
      exact ⟨t', ht', hp, rfl, rfl⟩

/-- Witness for C8: a push event to branch `dev` with two targets — one
allowing only `main`, one with an empty allow-list — passes exactly the
unfiltered target, and the delivered line goes to it. -/
theorem webhook_branch_and_category_filters_witness :
    ((fun t : Target => t.branches ≠ [] → str "dev" ∉ t.branches →
        targetPasses (fun e => if e = str "code" then [str "push"] else [])
          [str "push"] (some (str "dev")) t = false)
      { network := str "n", channel := str "#c",
        events := [str "code"], branches := [str "main"] }) ∧
    targetPasses (fun e => if e = str "code" then [str "push"] else [])
      [str "push"] (some (str "dev"))
      { network := str "n", channel := str "#d",
        events := [str "code"], branches := [] } = true := by
  have h := webhook_branch_and_category_filters
    (fun e => if e = str "code" then [str "push"] else [])
    [str "push"] (str "dev") (by decide) [] (str "r")
    [{ network := str "n", channel := str "#c",
       events := [str "code"], branches := [str "main"] }]
    { network := str "n", channel := str "#c",
      events := [str "code"], branches := [str "main"] }
  have h2 := webhook_branch_and_category_filters
    (fun e => if e = str "code" then [str "push"] else [])
    [str "push"] (str "dev") (by decide) [] (str "r")
    [{ network := str "n", channel := str "#d",
       events := [str "code"], branches := [] }]
    { network := str "n", channel := str "#d",
      events := [str "code"], branches := [] }
  exact ⟨h.1, h2.2.1.mpr (by decide)⟩

lemma mem_reconcile_join (net n ch : Str) (newChans curChans : List Str) :
    Cmd.join n ch ∈ (reconcileChannels net newChans curChans).1 ↔
      (n = net ∧ ch ∈ newChans ∧ ch ∉ curChans) := by
  simp only [reconcileChannels, List.mem_append, List.mem_map, List.mem_filter,
    decide_eq_true_eq]
  constructor
  · rintro (⟨x, ⟨hx, hnx⟩, heq⟩ | ⟨x, _, hfalse⟩)
    · injection heq with e1 e2
      exact ⟨e1.symm, e2 ▸ hx, e2 ▸ hnx⟩
    · exact absurd hfalse (by simp)
  · rintro ⟨rfl, h1, h2⟩
    exact Or.inl ⟨ch, ⟨h1, h2⟩, rfl⟩

lemma mem_reconcile_part (net n ch : Str) (newChans curChans : List Str) :
    Cmd.part n ch ∈ (reconcileChannels net newChans curChans).1 ↔
      (n = net ∧ ch ∈ curChans ∧ ch ∉ newChans) := by
  simp only [reconcileChannels, List.mem_append, List.mem_map, List.mem_filter,
    decide_eq_true_eq]
  constructor
  · rintro (⟨x, _, hfalse⟩ | ⟨x, ⟨hx, hnx⟩, heq⟩)
    · exact absurd hfalse (by simp)
    · injection heq with e1 e2
      exact ⟨e1.symm, e2 ▸ hx, e2 ▸ hnx⟩
  · rintro ⟨rfl, h1, h2⟩
    exact Or.inr ⟨ch, ⟨h1, h2⟩, rfl⟩

lemma mem_reconcile_purge (net n ch : Str) (newChans curChans : List Str) :
    (n, ch) ∈ (reconcileChannels net newChans curChans).2 ↔
      (n = net ∧ ch ∈ curChans ∧ ch ∉ newChans) := by
  simp only [reconcileChannels, List.mem_map, List.mem_filter, decide_eq_true_eq,
    Prod.mk.injEq]
  constructor
  · rintro ⟨x, ⟨hx, hnx⟩, e1, e2⟩
    exact ⟨e1.symm, e2 ▸ hx, e2 ▸ hnx⟩
  · rintro ⟨rfl, h1, h2⟩
    exact ⟨ch, ⟨h1, h2⟩, rfl, rfl⟩

lemma mem_keptPairs (st : List ClientSt) (cfg : List NetCfg)
    (nc : NetCfg) (c : ClientSt) :
    (nc, c) ∈ keptPairs st cfg ↔
      nc ∈ cfg ∧ st.find? (fun x => x.name == nc.name) = some c := by
  simp only [keptPairs, List.mem_filterMap, Option.map_eq_some']
  constructor
  · rintro ⟨nc', hnc', c', hfind, heq⟩
    injection heq with e1 e2
    subst e1
    subst e2
    exact ⟨hnc', hfind⟩
  · rintro ⟨h1, h2⟩
    exact ⟨nc, h1, c, h2, rfl⟩

lemma mem_reload_cmds (st : List ClientSt) (cfg : List NetCfg) (x : Cmd) :
    x ∈ (reload st cfg).cmds ↔
      ∃ p ∈ keptPairs st cfg,
        x ∈ (reconcileChannels p.1.name (p.1.channels.map lower) p.2.channels).1 := by
  simp only [reload, List.mem_flatten, List.mem_map]
  constructor
  · rintro ⟨l, ⟨q, ⟨p, hp, rfl⟩, rfl⟩, hx⟩
    exact ⟨p, hp, hx⟩
  · rintro ⟨p, hp, hx⟩
    exact ⟨_, ⟨_, ⟨p, hp, rfl⟩, rfl⟩, hx⟩

lemma mem_reload_purgedChannels (st : List ClientSt) (cfg : List NetCfg)
    (x : Str × Str) :
    x ∈ (reload st cfg).purgedChannels ↔
      ∃ p ∈ keptPairs st cfg,
        x ∈ (reconcileChannels p.1.name (p.1.channels.map lower) p.2.channels).2 := by
  simp only [reload, List.mem_flatten, List.mem_map]
  constructor
  · rintro ⟨l, ⟨q, ⟨p, hp, rfl⟩, rfl⟩, hx⟩
    exact ⟨p, hp, hx⟩
  · rintro ⟨p, hp, hx⟩
    exact ⟨_, ⟨_, ⟨p, hp, rfl⟩, rfl⟩, hx⟩

/-- C6: reconciling a network present in both the topology and the new
config sends `JOIN` for exactly the configured-but-not-joined channels,
sends `PART` (and purges the channel's persisted routes/feeds) for
exactly the joined-but-no-longer-configured channels, and touches no
channel present in both sets. -/
theorem reload_channel_symmetric_diff
    (st : List ClientSt) (cfg : List NetCfg)
    (hnd : (cfg.map NetCfg.name).Nodup)
    (nc : NetCfg) (c : ClientSt) (ch : Str)
    (hmem : nc ∈ cfg)
    (hfind : st.find? (fun x => x.name == nc.name) = some c) :
    (Cmd.join nc.name ch ∈ (reload st cfg).cmds ↔
       (ch ∈ nc.channels.map lower ∧ ch ∉ c.channels)) ∧
    (Cmd.part nc.name ch ∈ (reload st cfg).cmds ↔
       (ch ∈ c.channels ∧ ch ∉ nc.channels.map lower)) ∧
    ((nc.name, ch) ∈ (reload st cfg).purgedChannels ↔
       (ch ∈ c.channels ∧ ch ∉ nc.channels.map lower)) ∧
    (ch ∈ nc.channels.map lower → ch ∈ c.channels →
       Cmd.join nc.name ch ∉ (reload st cfg).cmds ∧
       Cmd.part nc.name ch ∉ (reload st cfg).cmds) := by
  have huniq : ∀ p ∈ keptPairs st cfg, p.1.name = nc.name → p = (nc, c) := by
    rintro ⟨nc', c'⟩ hp hname
    rw [mem_keptPairs] at hp
    have : nc' = nc := List.inj_on_of_nodup_map hnd hp.1 hmem hname
    subst this
    have : c' = c := by
      have := hp.2.symm.trans hfind
      exact Option.some.inj this
    subst this
    rfl
  have hjoin : Cmd.join nc.name ch ∈ (reload st cfg).cmds ↔
      (ch ∈ nc.channels.map lower ∧ ch ∉ c.channels) := by
    rw [mem_reload_cmds]
    constructor
    · rintro ⟨p, hp, hin⟩
      rw [mem_reconcile_join] at hin
      have hpe := huniq p hp hin.1.symm
      subst hpe
      exact ⟨hin.2.1, hin.2.2⟩
    · rintro ⟨h1, h2⟩
      exact ⟨(nc, c), (mem_keptPairs _ _ _ _).mpr ⟨hmem, hfind⟩,
        (mem_reconcile_join _ _ _ _ _).mpr ⟨rfl, h1, h2⟩⟩
  have hpart : Cmd.part nc.name ch ∈ (reload st cfg).cmds ↔
      (ch ∈ c.channels ∧ ch ∉ nc.channels.map lower) := by
    rw [mem_reload_cmds]
    constructor
    · rintro ⟨p, hp, hin⟩
      rw [mem_reconcile_part] at hin
      have hpe := huniq p hp hin.1.symm
      subst hpe
      exact ⟨hin.2.1, hin.2.2⟩
    · rintro ⟨h1, h2⟩
      exact ⟨(nc, c), (mem_keptPairs _ _ _ _).mpr ⟨hmem, hfind⟩,
        (mem_reconcile_part _ _ _ _ _).mpr ⟨rfl, h1, h2⟩⟩
  have hpurge : (nc.name, ch) ∈ (reload st cfg).purgedChannels ↔
      (ch ∈ c.channels ∧ ch ∉ nc.channels.map lower) := by
    rw [mem_reload_purgedChannels]
    constructor
    · rintro ⟨p, hp, hin⟩
      rw [mem_reconcile_purge] at hin
      have hpe := huniq p hp hin.1.symm
      subst hpe
      exact ⟨hin.2.1, hin.2.2⟩
    · rintro ⟨h1, h2⟩
      exact ⟨(nc, c), (mem_keptPairs _ _ _ _).mpr ⟨hmem, hfind⟩,
        (mem_reconcile_purge _ _ _ _ _).mpr ⟨rfl, h1, h2⟩⟩
  refine ⟨hjoin, hpart, hpurge, ?_⟩
  intro h1 h2
  constructor
  · intro hmem2
    exact ((hjoin.mp hmem2).2) h2
  · intro hmem2
    exact ((hpart.mp hmem2).2) h1

/-- Witness for C6: a network with joined set `{#a, #b}` reconfigured to
`{#a, #c}` joins `#c`, parts and purges `#b`, and does nothing for
`#a`. -/
theorem reload_channel_symmetric_diff_witness :
    (Cmd.join (str "n") (str "#c") ∈
       (reload [{ name := str "n", channels := [str "#a", str "#b"] }]
         [{ name := str "n", channels := [str "#a", str "#c"] }]).cmds ↔
       (str "#c" ∈ [str "#a", str "#c"].map lower ∧
        str "#c" ∉ [str "#a", str "#b"])) ∧
    (Cmd.part (str "n") (str "#b") ∈
       (reload [{ name := str "n", channels := [str "#a", str "#b"] }]
         [{ name := str "n", channels := [str "#a", str "#c"] }]).cmds ↔
       (str "#b" ∈ [str "#a", str "#b"] ∧
        str "#b" ∉ [str "#a", str "#c"].map lower)) ∧
    ((str "n", str "#b") ∈
       (reload [{ name := str "n", channels := [str "#a", str "#b"] }]
         [{ name := str "n", channels := [str "#a", str "#c"] }]).purgedChannels ↔
       (str "#b" ∈ [str "#a", str "#b"] ∧
        str "#b" ∉ [str "#a", str "#c"].map lower)) ∧
    (str "#a" ∈ [str "#a", str "#c"].map lower → str "#a" ∈ [str "#a", str "#b"] →
       Cmd.join (str "n") (str "#a") ∉
         (reload [{ name := str "n", channels := [str "#a", str "#b"] }]
           [{ name := str "n", channels := [str "#a", str "#c"] }]).cmds ∧
       Cmd.part (str "n") (str "#a") ∉
         (reload [{ name := str "n", channels := [str "#a", str "#b"] }]
           [{ name := str "n", channels := [str "#a", str "#c"] }]).cmds) := by
  have h := reload_channel_symmetric_diff
    [{ name := str "n", channels := [str "#a", str "#b"] }]
    [{ name := str "n", channels := [str "#a", str "#c"] }]
    (by decide)
    { name := str "n", channels := [str "#a", str "#c"] }
    { name := str "n", channels := [str "#a", str "#b"] }
  exact ⟨(h (str "#c") (by decide) (by decide)).1,
         (h (str "#b") (by decide) (by decide)).2.1,
         (h (str "#b") (by decide) (by decide)).2.2.1,
         (h (str "#a") (by decide) (by decide)).2.2.2⟩

lemma find?_filter_eq_find? {α : Type} (l : List α) (p q : α → Bool)
    (himp : ∀ a, p a = true → q a = true) :
    (l.filter q).find? p = l.find? p := by
  induction l with
  | nil => rfl
  | cons a t ih =>
    by_cases hq : q a = true
    · rw [List.filter_cons_of_pos hq]
      by_cases hp : p a = true
      · rw [List.find?_cons_of_pos _ hp, List.find?_cons_of_pos _ hp]
      · rw [List.find?_cons_of_neg _ hp, List.find?_cons_of_neg _ hp]
        exact ih
    · have hp : ¬ p a = true := fun hpa => hq (himp a hpa)
      rw [List.filter_cons_of_neg hq, List.find?_cons_of_neg _ hp]
      exact ih

lemma keptPairs_filter_left (st : List ClientSt) (cfg : List NetCfg) :
    keptPairs (st.filter fun c => c.name ∈ cfg.map NetCfg.name) cfg =
      keptPairs st cfg := by
  unfold keptPairs
  apply List.filterMap_congr
  intro nc hnc
  congr 1
  apply find?_filter_eq_find?
  intro a ha
  simp only [beq_iff_eq] at ha
  simp only [decide_eq_true_eq, ha]
  exact List.mem_map.mpr ⟨nc, hnc, rfl⟩

lemma reload_state_names_sub (st : List ClientSt) (cfg : List NetCfg) :
    ∀ c ∈ (reload st cfg).state, c.name ∈ cfg.map NetCfg.name := by
  intro c hc
  simp only [reload, List.mem_append] at hc
  rcases hc with hc | hc
  · have := (List.mem_filter.mp hc).2
    simpa using this
  · obtain ⟨nc, hnc, rfl⟩ := List.mem_map.mp hc
    exact List.mem_map.mpr ⟨nc, (List.mem_filter.mp hnc).1, rfl⟩

lemma cfg_names_sub_reload_state (st : List ClientSt) (cfg : List NetCfg) :
    ∀ nc ∈ cfg, nc.name ∈ (reload st cfg).state.map ClientSt.name := by
  intro nc hnc
  by_cases hin : nc.name ∈ st.map ClientSt.name
  · obtain ⟨c, hc, hcname⟩ := List.mem_map.mp hin
    apply List.mem_map.mpr
    refine ⟨c, ?_, hcname⟩
    simp only [reload, List.mem_append]
    left
    apply List.mem_filter.mpr
    refine ⟨hc, ?_⟩
    simp only [decide_eq_true_eq, hcname]
    exact List.mem_map.mpr ⟨nc, hnc, rfl⟩
  · apply List.mem_map.mpr
    refine ⟨⟨nc.name, []⟩, ?_, rfl⟩
    simp only [reload, List.mem_append]
    right
    apply List.mem_map.mpr
    refine ⟨nc, ?_, rfl⟩
    apply List.mem_filter.mpr
    exact ⟨hnc, by simpa using hin⟩

lemma reload_added_eq_nil_of_names_sub (st1 : List ClientSt) (cfg : List NetCfg)
    (h : ∀ nc ∈ cfg, nc.name ∈ st1.map ClientSt.name) :
    (reload st1 cfg).added = [] := by
  simp only [reload]
  rw [List.filter_eq_nil_iff.mpr (fun nc hnc => by simpa using h nc hnc)]
  rfl

lemma reload_removed_eq_nil_of_names_sub (st1 : List ClientSt) (cfg : List NetCfg)
    (h : ∀ c ∈ st1, c.name ∈ cfg.map NetCfg.name) :
    (reload st1 cfg).removed = [] := by
  simp only [reload]
  rw [List.filter_eq_nil_iff.mpr (fun c hc => by simpa using h c hc)]
  rfl

lemma reload_state_of_added_nil (st : List ClientSt) (cfg : List NetCfg)
    (h : (reload st cfg).added = []) :
    (reload st cfg).state = st.filter fun c => c.name ∈ cfg.map NetCfg.name := by
  have h2 : (cfg.filter fun nc => nc.name ∉ st.map ClientSt.name) = [] := by
    have h3 : ((cfg.filter fun nc =>
        nc.name ∉ st.map ClientSt.name).map NetCfg.name) = [] := h
    exact List.map_eq_nil_iff.mp h3
  simp only [reload, h2, List.map_nil, List.append_nil]

lemma reload_summary_of_nil (st1 : List ClientSt) (cfg : List NetCfg)
    (h1 : (reload st1 cfg).added = [])
    (h2 : (reload st1 cfg).removed = [])
    (h3 : (reload st1 cfg).updated = []) :
    (reload st1 cfg).summary = str "Reloaded. no network changes." := by
  simp only [reload] at h1 h2 h3 ⊢
  rw [h1, h2, h3]
  simp only [ne_eq, not_true_eq_false, if_false, List.append_nil, List.append_assoc]
  norm_num
  decide

lemma reload_state_fixed (st1 : List ClientSt) (cfg : List NetCfg)
    (hb : ∀ nc ∈ cfg, nc.name ∈ st1.map ClientSt.name)
    (ha : ∀ c ∈ st1, c.name ∈ cfg.map NetCfg.name) :
    (reload st1 cfg).state = st1 := by
  simp only [reload]
  rw [List.filter_eq_self.mpr (fun c hc => by simpa using ha c hc),
    List.filter_eq_nil_iff.mpr (fun nc hnc => by simpa using hb nc hnc)]
  simp

/-- C7 (amended): the second of two consecutive `reload`s against the same
config starts and stops no engine unconditionally; and when the first
call started no engine and sent no JOIN/PART (i.e. the topology already
matched the config), the second call also sends nothing, reports no
updated network, returns the "no network changes" summary and leaves the
state unchanged.  (When the first call did send JOINs, a second call made
before the server echoes them back into `_channels` re-sends the same
commands — the counterexample.) -/
theorem reload_twice_engine_noop_and_conditional_channel_noop
    (st : List ClientSt) (cfg : List NetCfg) :
    (reload (reload st cfg).state cfg).added = [] ∧
    (reload (reload st cfg).state cfg).removed = [] ∧
    ((reload st cfg).added = [] → (reload st cfg).cmds = [] →
      (reload (reload st cfg).state cfg).cmds = [] ∧
      (reload (reload st cfg).state cfg).updated = [] ∧
      (reload (reload st cfg).state cfg).summary =
        str "Reloaded. no network changes." ∧
      (reload (reload st cfg).state cfg).state = (reload st cfg).state) := by
  have hadded2 : (reload (reload st cfg).state cfg).added = [] :=
    reload_added_eq_nil_of_names_sub _ _ (cfg_names_sub_reload_state st cfg)
  have hremoved2 : (reload (reload st cfg).state cfg).removed = [] :=
    reload_removed_eq_nil_of_names_sub _ _ (reload_state_names_sub st cfg)
  refine ⟨hadded2, hremoved2, ?_⟩
  intro hadd hcmds
  have hst1 : (reload st cfg).state =
      st.filter fun c => c.name ∈ cfg.map NetCfg.name :=
    reload_state_of_added_nil st cfg hadd
  have hkept : keptPairs (reload st cfg).state cfg = keptPairs st cfg := by
    rw [hst1]
    exact keptPairs_filter_left st cfg
  have hcmds1 :
      ((((keptPairs st cfg).map fun p =>
          (p.1.name, reconcileChannels p.1.name (p.1.channels.map lower)
            p.2.channels)).map fun x => x.2.1).flatten : List Cmd) = [] := hcmds
  have hcmds2 : (reload (reload st cfg).state cfg).cmds = [] := by
    show ((((keptPairs (reload st cfg).state cfg).map fun p =>
        (p.1.name, reconcileChannels p.1.name (p.1.channels.map lower)
          p.2.channels)).map fun x => x.2.1).flatten : List Cmd) = []
    rw [hkept]
    exact hcmds1
  have hall : ∀ q ∈ ((keptPairs st cfg).map fun p =>
      (p.1.name, reconcileChannels p.1.name (p.1.channels.map lower)
        p.2.channels)), q.2.1 = [] := by
    intro q hq
    exact List.flatten_eq_nil_iff.mp hcmds1 q.2.1 (List.mem_map.mpr ⟨q, hq, rfl⟩)
  have hupd1 : ((((keptPairs st cfg).map fun p =>
      (p.1.name, reconcileChannels p.1.name (p.1.channels.map lower)
        p.2.channels)).filter fun x => x.2.1 ≠ []).map fun x => x.1) = [] := by
    rw [List.filter_eq_nil_iff.mpr (fun q hq => by simp [hall q hq])]
    rfl
  have hupd2 : (reload (reload st cfg).state cfg).updated = [] := by
    show ((((keptPairs (reload st cfg).state cfg).map fun p =>
        (p.1.name, reconcileChannels p.1.name (p.1.channels.map lower)
          p.2.channels)).filter fun x => x.2.1 ≠ []).map fun x => x.1) = []
    rw [hkept]
    exact hupd1
  refine ⟨hcmds2, hupd2,
    reload_summary_of_nil _ _ hadded2 hremoved2 hupd2,
    reload_state_fixed _ _ (cfg_names_sub_reload_state st cfg)
      (reload_state_names_sub st cfg)⟩

/-- C7 counterexample: with an engine for `n` whose joined set is still
empty, two consecutive reloads of the same config (channel `#a`) both
send `JOIN #a` and both report "channels updated" — the second call is a
repeat, not a no-op, because `reload` never updates `_channels` itself. -/
theorem reload_twice_not_noop_counterexample :
    (reload (reload [{ name := str "n", channels := [] }]
        [{ name := str "n", channels := [str "#a"] }]).state
        [{ name := str "n", channels := [str "#a"] }]).cmds =
      [Cmd.join (str "n") (str "#a")] ∧
    (reload (reload [{ name := str "n", channels := [] }]
        [{ name := str "n", channels := [str "#a"] }]).state
        [{ name := str "n", channels := [str "#a"] }]).summary =
      str "Reloaded. channels updated: n" ∧
    str "Reloaded. channels updated: n" ≠ str "Reloaded. no network changes." := by
  decide

/-- Witness for the amended C7: a topology that already matches the config
(`n` joined to `#a`): the first reload is a no-op, and the theorem makes
the second one a full no-op with the "no network changes" summary. -/
theorem reload_twice_engine_noop_witness :
    (reload (reload [{ name := str "n", channels := [str "#a"] }]
        [{ name := str "n", channels := [str "#a"] }]).state
        [{ name := str "n", channels := [str "#a"] }]).added = [] ∧
    (reload (reload [{ name := str "n", channels := [str "#a"] }]
        [{ name := str "n", channels := [str "#a"] }]).state
        [{ name := str "n", channels := [str "#a"] }]).cmds = [] ∧
    (reload (reload [{ name := str "n", channels := [str "#a"] }]
        [{ name := str "n", channels := [str "#a"] }]).state
        [{ name := str "n", channels := [str "#a"] }]).summary =
      str "Reloaded. no network changes." :=
  ⟨(reload_twice_engine_noop_and_conditional_channel_noop _ _).1,
   ((reload_twice_engine_noop_and_conditional_channel_noop _ _).2.2
      (by decide) (by decide)).1,
   ((reload_twice_engine_noop_and_conditional_channel_noop _ _).2.2
      (by decide) (by decide)).2.2.1⟩

end GitBot
